import Mathlib

/-!
Shallow embedding of the techread scoring and digest-budgeting core.

Sources embedded:
* `src/techread/utils/text.py` — `contains_any` (case-insensitive substring
  counting over a list of needles).
* `src/techread/rank/scoring.py` — `_freshness` and `score_post`.
* `src/techread/cli/posts.py` — the time-budget selection block of `digest`
  (lines 246-264: estimated minutes, efficiency re-sort, greedy selection).

Modelling conventions:
* Python strings are `List Char`; `str.lower()` is a character-wise `toLower`
  map; the substring operator `in` is list infix (`<:+:`).
* Python floats are modelled as exact real numbers (`ℝ`) in the scoring
  engine (which uses the transcendental `math.exp`) and as exact rationals
  (`ℚ`) in the budgeter (which only divides and compares).
* Python `round` (banker's rounding, half to even) is modelled explicitly.
* `datetime` instants are real-valued UTC timestamps in seconds;
  `(now - published).total_seconds()` is plain subtraction.  The third-party
  `dateutil` parser behind `parse_datetime_iso` is external to the repository,
  so `score_post` takes the parse function as an explicit argument returning
  `Option ℝ`; `none` models the exception caught by `score_post`'s
  `try/except` block.
-/

/-! ## Text utilities (`src/techread/utils/text.py`) -/

/-- Character-wise lowering: the model of Python `str.lower()`. -/
def pyLower (s : List Char) : List Char := s.map Char.toLower

/-- Embedding of `contains_any(text, needles)`: counts the needles that are
nonempty (`if n`) and whose lowercase form is a substring of the lowercase
text (`n.lower() in t`). -/
def contains_any (text : List Char) (needles : List (List Char)) : ℕ :=
  needles.countP (fun n => !n.isEmpty && decide (pyLower n <:+: pyLower text))

/-! ## Rounding (Python `round`, half to even) -/

/-- Python `round(x)` on a real value: nearest integer, ties to even. -/
noncomputable def pyRound (x : ℝ) : ℤ :=
  if x - ⌊x⌋ < 1/2 then ⌊x⌋
  else if (1:ℝ)/2 < x - ⌊x⌋ then ⌊x⌋ + 1
  else if ⌊x⌋ % 2 = 0 then ⌊x⌋ else ⌊x⌋ + 1

/-- Python `round(x, ndigits)` on a real value. -/
noncomputable def roundTo (ndigits : ℕ) (x : ℝ) : ℝ :=
  (pyRound (x * 10 ^ ndigits) : ℝ) / 10 ^ ndigits

/-- Python `round(q)` on a rational value: nearest integer, ties to even. -/
def pyRoundQ (q : ℚ) : ℤ :=
  if q - ⌊q⌋ < 1/2 then ⌊q⌋
  else if (1:ℚ)/2 < q - ⌊q⌋ then ⌊q⌋ + 1
  else if ⌊q⌋ % 2 = 0 then ⌊q⌋ else ⌊q⌋ + 1

/-! ## Scoring engine (`src/techread/rank/scoring.py`) -/

/-- Embedding of `_freshness(age_hours)`: exponential decay
`exp(-age_hours / 36.0)`. -/
noncomputable def _freshness (age_hours : ℝ) : ℝ := Real.exp (-age_hours / 36.0)

/-- Embedding of the inline topic-score expression of `score_post`
(line 85): `min(topic_hits * 0.15, 0.6)`. -/
noncomputable def topic_score_of (topic_hits : ℕ) : ℝ :=
  min ((topic_hits : ℝ) * 0.15) 0.6

/-- Embedding of the inline length-penalty expression of `score_post`
(line 87): `min(word_count / 2500.0, 1.0) * 0.30`. -/
noncomputable def length_penalty_of (word_count : ℤ) : ℝ :=
  min ((word_count : ℝ) / 2500.0) 1.0 * 0.30

/-- Result container of `score_post`: the full-precision score and the
breakdown dict, modelled as the association list produced by the dict
literal at lines 96-105 of `scoring.py`. -/
structure ScoreResult where
  score : ℝ
  breakdown : List (String × ℝ)

/-- Embedding of `score_post`.  `parse_datetime_iso` is the external
`dateutil`-backed parser, returning `none` when the Python original raises;
`(·.getD now)` is the `try/except` substitution of `now` on parse failure. -/
noncomputable def score_post (parse_datetime_iso : String → Option ℝ) (now : ℝ)
    (published_at_iso : String) (source_weight : ℝ) (title : List Char)
    (content_text : List Char) (word_count : ℤ)
    (topics : List (List Char)) : ScoreResult :=
  let published_dt : ℝ := (parse_datetime_iso published_at_iso).getD now
  let age_hours : ℝ := max 0 ((now - published_dt) / 3600)
  let freshness : ℝ := _freshness age_hours
  let topic_hits : ℕ :=
    contains_any title topics + contains_any (content_text.take 2000) topics
  let topic_score : ℝ := topic_score_of topic_hits
  let length_penalty : ℝ := length_penalty_of word_count
  let score : ℝ :=
    1.00 * freshness + 0.20 * source_weight + 0.70 * topic_score
      - 1.00 * length_penalty
  { score := score
    breakdown := [
      ("age_hours", roundTo 2 age_hours),
      ("freshness", roundTo 4 freshness),
      ("source_weight", roundTo 3 source_weight),
      ("topic_hits", (topic_hits : ℝ)),
      ("topic_score", roundTo 3 topic_score),
      ("word_count", (word_count : ℝ)),
      ("length_penalty", roundTo 3 length_penalty),
      ("final", roundTo 4 score)] }

/-! ## Digest budgeter (`src/techread/cli/posts.py`, lines 246-264) -/

/-- A digest candidate as used by the budget block: its score and its
`word_count` (already coerced by `int(it.get("word_count") or 0)`). -/
structure DigestItem where
  score : ℚ
  word_count : ℤ
deriving DecidableEq

/-- Embedding of the `_mins` computation:
`max(1, int(round(wc / 220.0))) if wc else 1`. -/
def est_minutes (wc : ℤ) : ℤ :=
  if wc = 0 then 1 else max 1 (pyRoundQ ((wc : ℚ) / 220))

/-- Embedding of the `_ratio` computation: `score / _mins`. -/
def efficiency (it : DigestItem) : ℚ :=
  it.score / (est_minutes it.word_count : ℚ)

/-- The comparison used by `items.sort(key=lambda x: x["_ratio"], reverse=True)`:
`a` sorts no later than `b` when `a`'s efficiency is at least `b`'s.  Python's
sort is stable, so any stable sort by this relation is extensionally the
same; we use insertion sort, which is stable for this relation. -/
def effOrder (a b : DigestItem) : Prop := efficiency b ≤ efficiency a

instance : DecidableRel effOrder :=
  fun a b => inferInstanceAs (Decidable (efficiency b ≤ efficiency a))

/-- Embedding of the greedy selection loop.  The first argument is the number
of still-available slots (`top - len(chosen)`); the loop body appends an item
when its minutes fit the remaining budget, then breaks when the remaining
budget is exhausted or all slots are filled. -/
def digestGreedy : ℕ → List DigestItem → ℤ → List DigestItem
  | _, [], _ => []
  | slots, it :: rest, remaining =>
    if est_minutes it.word_count ≤ remaining then
      if remaining - est_minutes it.word_count ≤ 0 ∨ slots ≤ 1 then [it]
      else it :: digestGreedy (slots - 1) rest (remaining - est_minutes it.word_count)
    else
      if remaining ≤ 0 ∨ slots ≤ 0 then []
      else digestGreedy slots rest remaining

/-- Embedding of the whole time-budget block of `digest`: with a positive
budget, annotate, re-sort by efficiency (stable, descending) and run the
greedy loop; otherwise truncate the score-sorted list to `top` items. -/
def digestBudget (minutes : ℤ) (top : ℕ) (items : List DigestItem) : List DigestItem :=
  if 0 < minutes then
    digestGreedy top (List.insertionSort effOrder items) minutes
  else
    items.take top

/-! ## Reference definitions written from the specification's words,
for the refinement claims (C1, C2). -/

/-- A topic keyword "occurs case-insensitively as a substring" of a field. -/
def specTopicOccurs (keyword field : List Char) : Prop :=
  pyLower keyword <:+: pyLower field

instance (keyword field : List Char) : Decidable (specTopicOccurs keyword field) :=
  inferInstanceAs (Decidable (_ <:+: _))

/-- The claim's literal topic-hit count: "the number of topic keywords that
occur case-insensitively as substrings of the title plus the number that
occur in the first 2000 characters of the content (each keyword counted at
most once per field)". -/
def specTopicHits (title content : List Char) (topics : List (List Char)) : ℕ :=
  topics.countP (fun k => decide (specTopicOccurs k title)) +
    topics.countP (fun k => decide (specTopicOccurs k (content.take 2000)))

/-- The amended topic-hit count: as `specTopicHits`, but counting only
nonempty topic keywords. -/
def specTopicHitsNonempty (title content : List Char) (topics : List (List Char)) : ℕ :=
  topics.countP (fun k => decide (k ≠ [] ∧ specTopicOccurs k title)) +
    topics.countP (fun k => decide (k ≠ [] ∧ specTopicOccurs k (content.take 2000)))

/-- The claim's reference final-score formula, with its literal topic-hit
count. -/
noncomputable def specFinalLiteral (now published : ℝ) (source_weight : ℝ)
    (title content : List Char) (word_count : ℤ) (topics : List (List Char)) : ℝ :=
  1.00 * Real.exp (-(max 0 ((now - published) / 3600)) / 36.0)
    + 0.20 * source_weight
    + 0.70 * min ((specTopicHits title content topics : ℝ) * 0.15) 0.6
    - 1.00 * (min ((word_count : ℝ) / 2500.0) 1.0 * 0.30)

/-- The reference final-score formula with the amended (nonempty-keyword)
topic-hit count. -/
noncomputable def specFinalAmended (now published : ℝ) (source_weight : ℝ)
    (title content : List Char) (word_count : ℤ) (topics : List (List Char)) : ℝ :=
  1.00 * Real.exp (-(max 0 ((now - published) / 3600)) / 36.0)
    + 0.20 * source_weight
    + 0.70 * min ((specTopicHitsNonempty title content topics : ℝ) * 0.15) 0.6
    - 1.00 * (min ((word_count : ℝ) / 2500.0) 1.0 * 0.30)

/-- The spec's estimated-minutes formula:
`max(1, round(word_count / 220.0))` if `word_count > 0`, else `1`. -/
def specEstimatedMinutes (wc : ℤ) : ℤ :=
  if 0 < wc then max 1 (pyRoundQ ((wc : ℚ) / 220)) else 1

/-- The spec's greedy consumption loop, as worded: stop as soon as the
remaining budget is `≤ 0` or the accepted count reaches `max_items`;
otherwise accept the head exactly when its minutes fit the remaining budget,
and in either case continue with the tail. -/
def specGreedy (maxItems : ℕ) : List DigestItem → ℤ → ℕ → List DigestItem
  | [], _, _ => []
  | it :: rest, remaining, accepted =>
    if remaining ≤ 0 ∨ maxItems ≤ accepted then []
    else if specEstimatedMinutes it.word_count ≤ remaining then
      it :: specGreedy maxItems rest (remaining - specEstimatedMinutes it.word_count)
        (accepted + 1)
    else
      specGreedy maxItems rest remaining accepted

/-- The spec's budgeter for a positive budget: re-sort by efficiency
descending (stable) and run the spec's greedy loop with no items accepted
yet. -/
def specBudgeter (minutes : ℤ) (maxItems : ℕ) (items : List DigestItem) : List DigestItem :=
  specGreedy maxItems (List.insertionSort effOrder items) minutes 0

/-! ## Claim theorems -/

/-- C4: the topic-score component `min(topic_hits * 0.15, 0.6)` equals
exactly `0.6` whenever `topic_hits ≥ 4`, and equals exactly `0.0` when
`topic_hits = 0` (the embedding computes with exact real arithmetic, where
these identities are exact; they also hold bit-exactly in binary doubles
since `0.6` rounds to four times the rounding of `0.15`). -/
theorem topic_score_saturation (topic_hits : ℕ) (h : 4 ≤ topic_hits) :
    topic_score_of topic_hits = 0.6 ∧ topic_score_of 0 = 0 := by
  constructor
  · have h4 : (4 : ℝ) ≤ (topic_hits : ℝ) := by exact_mod_cast h
    have : (0.6 : ℝ) ≤ (topic_hits : ℝ) * 0.15 := by nlinarith
    simpa [topic_score_of] using min_eq_right this
  · simp [topic_score_of]
    norm_num

/-- Witness for C4 at `topic_hits = 4`. -/
theorem topic_score_saturation_witness :
    topic_score_of 4 = 0.6 ∧ topic_score_of 0 = 0 :=
  topic_score_saturation 4 (by decide)

/-- C7: the length penalty `min(word_count / 2500.0, 1.0) * 0.30` is `0` at
`word_count = 0`, is `0.30` at `word_count = 2500`, stays capped at `0.30`
for every `word_count ≥ 2500`, and ramps linearly
(`word_count / 2500 * 0.30`) in between. -/
theorem length_penalty_linearity (wc wc2 : ℤ) (h1 : 2500 ≤ wc)
    (h2 : 0 ≤ wc2) (h3 : wc2 ≤ 2500) :
    length_penalty_of 0 = 0 ∧ length_penalty_of 2500 = 0.30 ∧
      length_penalty_of wc = 0.30 ∧
      length_penalty_of wc2 = (wc2 : ℝ) / 2500 * 0.30 := by
  refine ⟨by norm_num [length_penalty_of], by norm_num [length_penalty_of], ?_, ?_⟩
  · have h1R : (2500 : ℝ) ≤ (wc : ℝ) := by exact_mod_cast h1
    have : (1.0 : ℝ) ≤ (wc : ℝ) / 2500.0 := by
      rw [le_div_iff (by norm_num)]
      linarith
    rw [length_penalty_of, min_eq_right this]
    norm_num
  · have h3R : (wc2 : ℝ) ≤ 2500 := by exact_mod_cast h3
    have : (wc2 : ℝ) / 2500.0 ≤ 1.0 := by
      rw [div_le_iff₀ (by norm_num)]
      linarith
    rw [length_penalty_of, min_eq_left this]
    norm_num

/-- Witness for C7 at `word_count = 5000` (capped) and `word_count = 1250`
(on the linear ramp). -/
theorem length_penalty_linearity_witness :
    length_penalty_of 0 = 0 ∧ length_penalty_of 2500 = 0.30 ∧
      length_penalty_of 5000 = 0.30 ∧
      length_penalty_of 1250 = (1250 : ℤ) / 2500 * 0.30 :=
  length_penalty_linearity 5000 1250 (by decide) (by decide) (by decide)

/-- C8: with a non-positive time budget, the budget block performs no
re-sort and no accounting and returns the first `top` candidates of the
score-sorted input, unchanged and in order. -/
theorem digest_no_budget_passthrough (minutes : ℤ) (top : ℕ)
    (items : List DigestItem) (h : minutes ≤ 0) :
    digestBudget minutes top items = items.take top := by
  rw [digestBudget, if_neg (not_lt.mpr h)]

/-- Witness for C8 at `minutes = 0`, `top = 2`. -/
theorem digest_no_budget_passthrough_witness :
    digestBudget 0 2 [⟨1, 220⟩, ⟨2, 440⟩, ⟨3, 660⟩] =
      ([⟨1, 220⟩, ⟨2, 440⟩, ⟨3, 660⟩] : List DigestItem).take 2 :=
  digest_no_budget_passthrough 0 2 _ (by decide)

/-- C5: only the first 2000 characters of the body content influence
`score_post`: two contents with the same first 2000 characters give the
identical score and breakdown. -/
theorem score_post_content_beyond_2000_irrelevant
    (parse : String → Option ℝ) (now : ℝ) (iso : String) (w : ℝ)
    (title c1 c2 : List Char) (wc : ℤ) (topics : List (List Char))
    (h : c1.take 2000 = c2.take 2000) :
    score_post parse now iso w title c1 wc topics =
      score_post parse now iso w title c2 wc topics := by
  simp only [score_post, h]

/-- Witness for C5: contents agreeing on the first 2000 characters but
differing beyond. -/
theorem score_post_content_beyond_2000_irrelevant_witness :
    (List.replicate 2000 'a' ++ ['c']).take 2000 =
        (List.replicate 2000 'a' ++ ['b']).take 2000 ∧
      score_post (fun _ => some 0) 0 "2024-01-01" 1 ['t']
          (List.replicate 2000 'a' ++ ['c']) 100 [['a']] =
        score_post (fun _ => some 0) 0 "2024-01-01" 1 ['t']
          (List.replicate 2000 'a' ++ ['b']) 100 [['a']] := by
  have base : ∀ z : Char,
      (List.replicate 2000 'a' ++ [z]).take 2000 = List.replicate 2000 'a' := by
    intro z
    have h1 := List.take_left (List.replicate 2000 'a') [z]
    rwa [List.length_replicate] at h1
  have h : (List.replicate 2000 'a' ++ ['c']).take 2000 =
      (List.replicate 2000 'a' ++ ['b']).take 2000 := (base 'c').trans (base 'b').symm
  exact ⟨h, score_post_content_beyond_2000_irrelevant _ _ _ _ _ _ _ _ _ h⟩

/-- The exponential at `200/36` exceeds `100` (via `exp 5 = (exp 1)^5` and a
decimal lower bound on `e`). -/
lemma exp_200_div_36_gt_100 : (100 : ℝ) < Real.exp (200 / 36) := by
  have h5 : Real.exp 5 ≤ Real.exp (200 / 36) := by
    apply Real.exp_le_exp.mpr
    norm_num
  have hmul : Real.exp 5 = Real.exp 1 ^ 5 := by
    rw [show (5 : ℝ) = ((5 : ℕ) : ℝ) * 1 by norm_num, Real.exp_nat_mul]
  have hpow : (2.7182818283 : ℝ) ^ 5 < Real.exp 1 ^ 5 := by
    apply pow_lt_pow_left₀ Real.exp_one_gt_d9 (by norm_num)
    norm_num
  have hnum : (100 : ℝ) < (2.7182818283 : ℝ) ^ 5 := by norm_num
  calc (100 : ℝ) < (2.7182818283 : ℝ) ^ 5 := hnum
    _ < Real.exp 1 ^ 5 := hpow
    _ = Real.exp 5 := hmul.symm
    _ ≤ Real.exp (200 / 36) := h5

/-- C6: freshness is `1` at age `0`; it is strictly decreasing in the age;
the freshness actually used by `score_post` (whose age argument is clamped
at `0`) lies in `(0, 1]` for every pair of timestamps, so future-dated posts
never exceed `1`; and `freshness 200 < 0.01`. -/
theorem freshness_bounds (a b : ℝ) (hab : a < b) (now dt : ℝ) :
    _freshness 0 = 1 ∧ _freshness b < _freshness a ∧
      (0 < _freshness (max 0 ((now - dt) / 3600)) ∧
        _freshness (max 0 ((now - dt) / 3600)) ≤ 1) ∧
      _freshness 200 < 0.01 := by
  refine ⟨?_, ?_, ⟨Real.exp_pos _, ?_⟩, ?_⟩
  · simp [_freshness, Real.exp_zero]
  · apply Real.exp_lt_exp.mpr
    have h36 : (0 : ℝ) < 36.0 := by norm_num
    rw [div_lt_div_iff h36 h36]
    nlinarith
  · rw [_freshness]
    have hage : (0 : ℝ) ≤ max 0 ((now - dt) / 3600) := le_max_left 0 _
    have harg : -(max 0 ((now - dt) / 3600)) / 36.0 ≤ 0 := by
      apply div_nonpos_of_nonpos_of_nonneg
      · linarith
      · norm_num
    calc Real.exp (-(max 0 ((now - dt) / 3600)) / 36.0)
        ≤ Real.exp 0 := Real.exp_le_exp.mpr harg
      _ = 1 := Real.exp_zero
  · rw [_freshness]
    have h1 : (-(200 : ℝ)) / 36.0 = -(200 / 36) := by norm_num
    rw [h1, Real.exp_neg]
    have h2 := exp_200_div_36_gt_100
    have h3 : (0 : ℝ) < 100 := by norm_num
    have := inv_lt_inv_of_lt h3 h2
    calc (Real.exp (200 / 36))⁻¹ < (100 : ℝ)⁻¹ := this
      _ ≤ 0.01 := by norm_num

/-- Witness for C6 at `a = 0 < b = 1` and timestamps `now = 0`, `dt = 3600`
(a post dated one hour in the future, exercising the clamp). -/
theorem freshness_bounds_witness :
    _freshness 0 = 1 ∧ _freshness 1 < _freshness 0 ∧
      (0 < _freshness (max 0 ((0 - 3600) / 3600)) ∧
        _freshness (max 0 ((0 - 3600) / 3600)) ≤ 1) ∧
      _freshness 200 < 0.01 :=
  freshness_bounds 0 1 zero_lt_one 0 3600

/-- Rounding zero to any number of digits gives zero. -/
lemma roundTo_zero (n : ℕ) : roundTo n 0 = 0 := by
  rw [roundTo, pyRound]
  norm_num

/-- C3: when `published_at_iso` fails to parse, `score_post` still returns a
result: the failure is absorbed locally by substituting `now` as the
effective publish time, so the breakdown's `age_hours` entry is `0` and the
score is computed with freshness `_freshness 0 = 1` (maximal); the result is
exactly that of a successful parse yielding `now`. -/
theorem score_post_parse_failure_fallback
    (parse : String → Option ℝ) (now : ℝ) (iso : String) (w : ℝ)
    (title content : List Char) (wc : ℤ) (topics : List (List Char))
    (h : parse iso = none) :
    score_post parse now iso w title content wc topics =
        score_post (fun _ => some now) now iso w title content wc topics ∧
      (score_post parse now iso w title content wc topics).score =
        1.00 * _freshness 0 + 0.20 * w +
          0.70 * topic_score_of
            (contains_any title topics + contains_any (content.take 2000) topics) -
          1.00 * length_penalty_of wc ∧
      _freshness 0 = 1 ∧
      (score_post parse now iso w title content wc topics).breakdown.head? =
        some ("age_hours", 0) := by
  refine ⟨?_, ?_, ?_, ?_⟩
  · simp [score_post, h]
  · simp [score_post, h]
  · simp [_freshness, Real.exp_zero]
  · simp [score_post, h, roundTo_zero]

/-- Witness for C3: a parse function that always fails. -/
theorem score_post_parse_failure_fallback_witness :
    (fun _ : String => (none : Option ℝ)) "bad-date" = none ∧
      (score_post (fun _ => none) 0 "bad-date" 1 ['t'] ['c'] 100 [['t']] =
          score_post (fun _ => some 0) 0 "bad-date" 1 ['t'] ['c'] 100 [['t']] ∧
        (score_post (fun _ => none) 0 "bad-date" 1 ['t'] ['c'] 100 [['t']]).score =
          1.00 * _freshness 0 + 0.20 * 1 +
            0.70 * topic_score_of
              (contains_any ['t'] [['t']] + contains_any (List.take 2000 ['c']) [['t']]) -
            1.00 * length_penalty_of 100 ∧
        _freshness 0 = 1 ∧
        (score_post (fun _ => none) 0 "bad-date" 1 ['t'] ['c'] 100 [['t']]).breakdown.head? =
          some ("age_hours", 0)) :=
  ⟨rfl, score_post_parse_failure_fallback (fun _ => none) 0 "bad-date" 1 ['t'] ['c'] 100
    [['t']] rfl⟩

/-- Freshness at age zero is one. -/
lemma freshness_zero : _freshness 0 = 1 := by
  simp [_freshness, Real.exp_zero]

/-- Freshness at age 200 hours is below one percent. -/
lemma freshness_200_lt : _freshness 200 < 0.01 := by
  rw [_freshness]
  have h1 : (-(200 : ℝ)) / 36.0 = -(200 / 36) := by norm_num
  rw [h1, Real.exp_neg]
  have h2 := exp_200_div_36_gt_100
  have h3 : (0 : ℝ) < 100 := by norm_num
  have h4 := inv_lt_inv_of_lt h3 h2
  calc (Real.exp (200 / 36))⁻¹ < (100 : ℝ)⁻¹ := h4
    _ ≤ 0.01 := by norm_num

/-- Filtering the empty needles out of a needle list does not change
`contains_any`. -/
lemma contains_any_filter_nonempty (t : List Char) (ns : List (List Char)) :
    contains_any t (ns.filter (fun n => !n.isEmpty)) = contains_any t ns := by
  rw [contains_any, contains_any, List.countP_filter]
  apply List.countP_congr
  intro x _
  cases x <;> simp

/-- C10: an empty-string topic keyword contributes zero topic hits — even
though the empty list is an infix of every list, `contains_any` skips empty
needles — so removing (equivalently, adding) empty-string entries from the
topics list never changes the result of `score_post`. -/
theorem empty_topic_keywords_ignored
    (parse : String → Option ℝ) (now : ℝ) (iso : String) (w : ℝ)
    (title content : List Char) (wc : ℤ) (topics : List (List Char)) :
    contains_any title [([] : List Char)] = 0 ∧
      ([] : List Char) <:+: pyLower title ∧
      score_post parse now iso w title content wc
          (topics.filter (fun n => !n.isEmpty)) =
        score_post parse now iso w title content wc topics := by
  refine ⟨?_, List.nil_infix, ?_⟩
  · simp [contains_any]
  · simp only [score_post, contains_any_filter_nonempty]

/-- Pointwise, the code's needle test agrees with "nonempty and occurs
case-insensitively as a substring". -/
lemma contains_any_eq_countP_spec (t : List Char) (ns : List (List Char)) :
    contains_any t ns = ns.countP (fun k => decide (k ≠ [] ∧ specTopicOccurs k t)) := by
  apply List.countP_congr
  intro x _
  cases x <;> simp [specTopicOccurs]

/-- The code's topic-hit count equals the amended reference count. -/
lemma topic_hits_eq_spec (title content : List Char) (topics : List (List Char)) :
    contains_any title topics + contains_any (content.take 2000) topics =
      specTopicHitsNonempty title content topics := by
  rw [specTopicHitsNonempty, contains_any_eq_countP_spec, contains_any_eq_countP_spec]

/-- C1 counterexample: with the empty string as a topic keyword, the claim's
literal reference formula counts it as occurring in both fields (the empty
string is a substring of every string), while `contains_any` skips it, so
the returned score differs from the literal reference value at this input,
whose `published_at_iso` parses. -/
theorem score_post_reference_empty_keyword_cex :
    (fun _ : String => some (0 : ℝ)) "d" = some 0 ∧
      (score_post (fun _ => some 0) 0 "d" 0 ['a'] [] 0 [[]]).score ≠
        specFinalLiteral 0 0 0 ['a'] [] 0 [[]] := by
  refine ⟨rfl, ?_⟩
  have h1 : contains_any ['a'] [[]] = 0 := by decide
  have h2 : contains_any (List.take 2000 ([] : List Char)) [[]] = 0 := by decide
  have h3 : specTopicHits ['a'] [] [[]] = 2 := by decide
  simp only [score_post, specFinalLiteral, h1, h2, h3, Option.getD_some]
  have e0 : max (0 : ℝ) ((0 - 0) / 3600) = 0 := by norm_num
  rw [e0]
  rw [freshness_zero]
  have e1 : -(0 : ℝ) / 36.0 = 0 := by norm_num
  rw [e1, Real.exp_zero]
  have e2 : topic_score_of 0 = 0 := by
    rw [topic_score_of]
    norm_num
  have e3 : length_penalty_of 0 = 0 := by
    rw [length_penalty_of]
    norm_num
  rw [e2, e3]
  norm_num

/-- C1 (amended): for every input whose `published_at_iso` parses, the score
returned by `score_post` equals the reference formula
`1.00*exp(-max(0, hours)/36) + 0.20*source_weight +
0.70*min(topic_hits*0.15, 0.6) - 1.00*min(word_count/2500, 1)*0.30`, where
`topic_hits` counts the nonempty topic keywords occurring case-insensitively
as substrings of the title plus those occurring in the first 2000 characters
of the content (each keyword at most once per field); and the result is
neither normalized nor clamped — concrete inputs drive it below `0` and
above `1`. -/
theorem score_post_matches_reference
    (parse : String → Option ℝ) (now dt : ℝ) (iso : String) (w : ℝ)
    (title content : List Char) (wc : ℤ) (topics : List (List Char))
    (h : parse iso = some dt) :
    (score_post parse now iso w title content wc topics).score =
        specFinalAmended now dt w title content wc topics ∧
      (score_post (fun _ => some (-720000)) 0 "old" 0 [] [] 2500 []).score < 0 ∧
      1 < (score_post (fun _ => some 0) 0 "new" 1 ['a'] ['a'] 0 [['a']]).score := by
  refine ⟨?_, ?_, ?_⟩
  · simp only [score_post, specFinalAmended, h, Option.getD_some, _freshness,
      topic_score_of, length_penalty_of, topic_hits_eq_spec]
  · have hca : contains_any [] ([] : List (List Char)) = 0 := by decide
    have hca2 : contains_any (List.take 2000 ([] : List Char)) ([] : List (List Char)) = 0 := by
      decide
    simp only [score_post, Option.getD_some, hca, hca2]
    have e0 : max (0 : ℝ) ((0 - (-720000)) / 3600) = 200 := by norm_num
    rw [e0]
    have e2 : topic_score_of 0 = 0 := by
      rw [topic_score_of]
      norm_num
    have e3 : length_penalty_of 2500 = 0.30 := by
      rw [length_penalty_of]
      norm_num
    rw [e2, e3]
    have := freshness_200_lt
    nlinarith [this]
  · have hca : contains_any ['a'] [['a']] = 1 := by decide
    have hca2 : contains_any (List.take 2000 ['a']) [['a']] = 1 := by decide
    simp only [score_post, Option.getD_some, hca, hca2]
    have e0 : max (0 : ℝ) ((0 - 0) / 3600) = 0 := by norm_num
    rw [e0, freshness_zero]
    have e2 : topic_score_of (1 + 1) = 0.3 := by
      rw [topic_score_of]
      norm_num
    have e3 : length_penalty_of 0 = 0 := by
      rw [length_penalty_of]
      norm_num
    rw [e2, e3]
    norm_num

/-- Witness for C1 (amended) at a concrete parsing input. -/
theorem score_post_matches_reference_witness :
    (fun _ : String => some (0 : ℝ)) "2024-01-01" = some 0 ∧
      ((score_post (fun _ => some 0) 0 "2024-01-01" 1 ['p'] ['q'] 100 [['p']]).score =
          specFinalAmended 0 0 1 ['p'] ['q'] 100 [['p']] ∧
        (score_post (fun _ => some (-720000)) 0 "old" 0 [] [] 2500 []).score < 0 ∧
        1 < (score_post (fun _ => some 0) 0 "new" 1 ['a'] ['a'] 0 [['a']]).score) :=
  ⟨rfl, score_post_matches_reference (fun _ => some 0) 0 0 "2024-01-01" 1 ['p'] ['q']
    100 [['p']] rfl⟩

/-- C9: the breakdown returned by `score_post` has exactly the eight fixed
keys in order; each value is the presentation rounding of its component
(`age_hours` to 2 places, `freshness` and `final` to 4, `source_weight`,
`topic_score` and `length_penalty` to 3, the integer fields unrounded);
and the `score` field is the full-precision combination of the unrounded
components — no rounded value feeds back into it. -/
theorem score_breakdown_structure
    (parse : String → Option ℝ) (now : ℝ) (iso : String) (w : ℝ)
    (title content : List Char) (wc : ℤ) (topics : List (List Char)) :
    (score_post parse now iso w title content wc topics).breakdown.map Prod.fst =
        ["age_hours", "freshness", "source_weight", "topic_hits", "topic_score",
          "word_count", "length_penalty", "final"] ∧
      (score_post parse now iso w title content wc topics).breakdown =
        [("age_hours", roundTo 2 (max 0 ((now - (parse iso).getD now) / 3600))),
          ("freshness", roundTo 4 (_freshness (max 0 ((now - (parse iso).getD now) / 3600)))),
          ("source_weight", roundTo 3 w),
          ("topic_hits", ((contains_any title topics +
            contains_any (content.take 2000) topics : ℕ) : ℝ)),
          ("topic_score", roundTo 3 (topic_score_of (contains_any title topics +
            contains_any (content.take 2000) topics))),
          ("word_count", (wc : ℝ)),
          ("length_penalty", roundTo 3 (length_penalty_of wc)),
          ("final", roundTo 4 (score_post parse now iso w title content wc topics).score)] ∧
      (score_post parse now iso w title content wc topics).score =
        1.00 * _freshness (max 0 ((now - (parse iso).getD now) / 3600)) + 0.20 * w +
          0.70 * topic_score_of (contains_any title topics +
            contains_any (content.take 2000) topics) -
          1.00 * length_penalty_of wc := by
  refine ⟨rfl, rfl, rfl⟩

/-- Half-even rounding never exceeds the floor plus one. -/
lemma pyRoundQ_le (q : ℚ) : pyRoundQ q ≤ ⌊q⌋ + 1 := by
  rw [pyRoundQ]
  split_ifs <;> omega

/-- The code's estimated-minutes computation (`... if wc else 1`) agrees with
the spec's formulation (`... if word_count > 0 else 1`) for every integer:
for negative word counts the rounded value is at most `0`, so the `max`
floor of one makes the two branches coincide. -/
lemma est_minutes_eq_spec (wc : ℤ) : est_minutes wc = specEstimatedMinutes wc := by
  rcases lt_trichotomy wc 0 with hneg | hzero | hpos
  · rw [est_minutes, specEstimatedMinutes, if_neg (by omega), if_neg (by omega)]
    apply max_eq_left
    have hq : ((wc : ℚ)) / 220 < 0 := by
      apply div_neg_of_neg_of_pos
      · exact_mod_cast hneg
      · norm_num
    have hf : ⌊((wc : ℚ)) / 220⌋ < 0 := Int.floor_lt.mpr (by exact_mod_cast hq)
    have hle := pyRoundQ_le ((wc : ℚ) / 220)
    omega
  · subst hzero
    rfl
  · rw [est_minutes, specEstimatedMinutes, if_neg (by omega), if_pos hpos]

/-- Unfolding equation for `digestGreedy` on a nonempty list. -/
lemma digestGreedy_cons (slots : ℕ) (it : DigestItem) (rest : List DigestItem) (r : ℤ) :
    digestGreedy slots (it :: rest) r =
      if est_minutes it.word_count ≤ r then
        if r - est_minutes it.word_count ≤ 0 ∨ slots ≤ 1 then [it]
        else it :: digestGreedy (slots - 1) rest (r - est_minutes it.word_count)
      else
        if r ≤ 0 ∨ slots ≤ 0 then []
        else digestGreedy slots rest r := rfl

/-- Unfolding equation for `specGreedy` on a nonempty list. -/
lemma specGreedy_cons (maxItems : ℕ) (it : DigestItem) (rest : List DigestItem)
    (r : ℤ) (cnt : ℕ) :
    specGreedy maxItems (it :: rest) r cnt =
      if r ≤ 0 ∨ maxItems ≤ cnt then []
      else if specEstimatedMinutes it.word_count ≤ r then
        it :: specGreedy maxItems rest (r - specEstimatedMinutes it.word_count) (cnt + 1)
      else specGreedy maxItems rest r cnt := rfl

/-- The code's greedy loop (tracking remaining slots, breaking after the
body) coincides with the spec's greedy loop (tracking the accepted count,
stopping at the head) whenever the remaining budget is positive and a slot
is free — the invariant that holds at loop entry. -/
lemma digestGreedy_eq_specGreedy (l : List DigestItem) :
    ∀ (top cnt : ℕ) (r : ℤ), 0 < r → cnt < top →
      digestGreedy (top - cnt) l r = specGreedy top l r cnt := by
  induction l with
  | nil =>
    intro top cnt r _ _
    rfl
  | cons it rest ih =>
    intro top cnt r hr hc
    rw [digestGreedy_cons, specGreedy_cons, est_minutes_eq_spec,
      if_neg (by omega : ¬(r ≤ 0 ∨ top ≤ cnt))]
    by_cases hm : specEstimatedMinutes it.word_count ≤ r
    · rw [if_pos hm, if_pos hm]
      by_cases hstop : r - specEstimatedMinutes it.word_count ≤ 0 ∨ top - cnt ≤ 1
      · rw [if_pos hstop]
        have htail : specGreedy top rest (r - specEstimatedMinutes it.word_count)
            (cnt + 1) = [] := by
          cases rest with
          | nil => rfl
          | cons b bs =>
            rw [specGreedy_cons, if_pos (by omega)]
        rw [htail]
      · rw [if_neg hstop]
        have h3 : top - cnt - 1 = top - (cnt + 1) := by omega
        rw [h3, ih top (cnt + 1) _ (by omega) (by omega)]
    · rw [if_neg hm, if_neg hm, if_neg (by omega : ¬(r ≤ 0 ∨ top - cnt ≤ 0))]
      exact ih top cnt r hr hc

/-- C2: with a positive budget and at least one slot, the budget block of
`digest` computes `estimated_minutes = max(1, round(wc/220))` for positive
word counts and `1` otherwise, re-sorts by `score/estimated_minutes`
descending (stable), and then greedily accepts exactly the candidates whose
minutes fit the remaining budget — skipping, not deferring, those that do
not — stopping as soon as the budget is exhausted or the accepted count
reaches the cap; on the three-candidate example with a 2-minute budget it
selects items 1 and 3, using exactly 2 minutes. -/
theorem digest_budget_greedy_spec (items : List DigestItem) (minutes : ℤ)
    (top : ℕ) (wc : ℤ) (h1 : 0 < minutes) (h2 : 1 ≤ top) :
    est_minutes wc = specEstimatedMinutes wc ∧
      digestBudget minutes top items = specBudgeter minutes top items ∧
      digestBudget 2 3 [⟨1, 220⟩, ⟨9/10, 440⟩, ⟨1/2, 220⟩] =
        ([⟨1, 220⟩, ⟨1/2, 220⟩] : List DigestItem) ∧
      ((digestBudget 2 3 [⟨1, 220⟩, ⟨9/10, 440⟩, ⟨1/2, 220⟩]).map
        (fun it => est_minutes it.word_count)).sum = 2 := by
  have e220 : est_minutes 220 = 1 := by norm_num [est_minutes, pyRoundQ]
  have e440 : est_minutes 440 = 2 := by norm_num [est_minutes, pyRoundQ]
  have ef1 : efficiency ⟨1, 220⟩ = 1 := by
    rw [efficiency]
    norm_num [e220]
  have ef2 : efficiency ⟨9/10, 440⟩ = 9/20 := by
    rw [efficiency]
    norm_num [e440]
  have ef3 : efficiency ⟨1/2, 220⟩ = 1/2 := by
    rw [efficiency]
    norm_num [e220]
  have hsort : List.insertionSort effOrder [⟨1, 220⟩, ⟨9/10, 440⟩, ⟨1/2, 220⟩] =
      ([⟨1, 220⟩, ⟨1/2, 220⟩, ⟨9/10, 440⟩] : List DigestItem) := by
    norm_num [List.insertionSort, List.orderedInsert, effOrder, ef1, ef2, ef3]
  have hgreedy : digestGreedy 3 [⟨1, 220⟩, ⟨1/2, 220⟩, ⟨9/10, 440⟩] 2 =
      ([⟨1, 220⟩, ⟨1/2, 220⟩] : List DigestItem) := by
    norm_num [digestGreedy_cons, e220, e440]
  have hex : digestBudget 2 3 [⟨1, 220⟩, ⟨9/10, 440⟩, ⟨1/2, 220⟩] =
      ([⟨1, 220⟩, ⟨1/2, 220⟩] : List DigestItem) := by
    rw [digestBudget, if_pos (by norm_num : (0:ℤ) < 2), hsort, hgreedy]
  refine ⟨est_minutes_eq_spec wc, ?_, hex, ?_⟩
  · rw [digestBudget, if_pos h1, specBudgeter]
    have := digestGreedy_eq_specGreedy (List.insertionSort effOrder items) top 0
      minutes h1 (by omega)
    simpa using this
  · rw [hex]
    simp [e220]

/-- Witness for C2 at `minutes = 1`, `top = 1`, the empty candidate list and
`wc = 0`. -/
theorem digest_budget_greedy_spec_witness :
    est_minutes 0 = specEstimatedMinutes 0 ∧
      digestBudget 1 1 [] = specBudgeter 1 1 [] ∧
      digestBudget 2 3 [⟨1, 220⟩, ⟨9/10, 440⟩, ⟨1/2, 220⟩] =
        ([⟨1, 220⟩, ⟨1/2, 220⟩] : List DigestItem) ∧
      ((digestBudget 2 3 [⟨1, 220⟩, ⟨9/10, 440⟩, ⟨1/2, 220⟩]).map
        (fun it => est_minutes it.word_count)).sum = 2 :=
  digest_budget_greedy_spec [] 1 1 0 (by decide) (by decide)
